import Mathlib

/-! Shallow embedding of the ABBYY Vantage dashboard (src/main.py and
src/helpers.py): the paginated transaction fetch, the review-report CSV join
(`fetch_tx_review_and_docskill`), the aggregation step of `POST /transactions`
(`get_transactions`), and the `POST /authenticate` handler.  Python dicts with
string keys are modelled as insertion-ordered association lists (`updAssoc`
mirrors `d[k] = f(d.get(k, default))`); the review map is modelled as a total
function defaulting to the empty entry, which is observationally equivalent to
the dict because every read in the source goes through
`result.get(txid, default)` or `tx_info_map.get(txid, {}).get(...)`.  The
`int(...)` coercion that can raise `ValueError` returns `Option`.  The
pagination `while` loop is embedded with explicit fuel bounding the number of
iterations; exhausted fuel (`none`) means the loop has not finished within
that many iterations. -/

namespace Vantage

/-- JSON-ish value found in a raw transaction item's `pageCount` field.
`vnone` covers both a missing key and JSON `null`, since Python
`row.get("pageCount")` returns `None` in both cases. -/
inductive PageVal where
  | vnone : PageVal
  | vint (n : Int) : PageVal
  | vstr (s : String) : PageVal
deriving DecidableEq

/-- One raw item of the `transactions/completed` response (`parsed["items"]`,
main.py line 441), restricted to the fields the program reads. -/
structure RawItem where
  transactionId : String
  status : String
  pageCount : PageVal
  createTimeUtc : String
  fileParameters : List (String × String)
deriving DecidableEq

/-- A cached transaction record: the raw item after `get_transactions` has set
`row["manualReview"]` and `row["documentSkillName"]` (main.py lines 461-462). -/
structure TxRecord where
  item : RawItem
  manualReview : String
  documentSkillName : String
deriving DecidableEq

/-- Entry of the review map for one transaction id, as initialised at
helpers.py line 73: `{"manual_review": False, "document_skill_name": ""}`. -/
structure ReviewEntry where
  manual_review : Bool
  document_skill_name : String
deriving DecidableEq

/-- `tx_info_map` / `result`: Python dict from transaction id to entry,
modelled as a total function defaulting to the empty entry. -/
def ReviewMap : Type := String → ReviewEntry

/-- The default entry used by `result.get(txid, {...})` (helpers.py line 73)
and, for the empty dict, by `tx_info_map.get(txid, {})` (main.py line 457). -/
def defaultEntry : ReviewEntry := ⟨false, ""⟩

/-- The empty review map (Python `{}` under `.get` with defaults). -/
def emptyReviewMap : ReviewMap := fun _ => defaultEntry

/-- Decimal digit run to a natural number, `none` when empty or when some
character is not a decimal digit. -/
def digitsToNat (cs : List Char) : Option Nat :=
  if cs = [] then none
  else if cs.all Char.isDigit then
    some (cs.foldl (fun a c => a * 10 + (c.toNat - '0'.toNat)) 0)
  else none

/-- Python `str.strip()`: drop leading and trailing whitespace.  Implemented
over the character list so that it reduces inside the kernel (`String.trim`
is defined by well-founded recursion over byte positions and does not). -/
def pyStrip (s : String) : String :=
  ⟨((s.toList.dropWhile Char.isWhitespace).reverse.dropWhile Char.isWhitespace).reverse⟩

/-- Python `str.lower()` (ASCII case folding, as needed here). -/
def pyLower (s : String) : String :=
  ⟨s.toList.map Char.toLower⟩

/-- Python `int(s)` on a string: optional surrounding whitespace, an optional
sign, then decimal digits; anything else raises `ValueError` (`none`).
(Python additionally accepts underscore separators and unicode digits, which
never occur in this program's data.) -/
def pyIntOfString (s : String) : Option Int :=
  match (pyStrip s).toList with
  | [] => none
  | c :: cs =>
    if c = '-' then (digitsToNat cs).map (fun n => -(n : Int))
    else if c = '+' then (digitsToNat cs).map (fun n => (n : Int))
    else (digitsToNat (c :: cs)).map (fun n => (n : Int))

/-- `int(row.get("pageCount") or 0)` (main.py lines 130 and 470): a falsy
value (`None`, `0`, `""`) is replaced by `0` before the coercion; a truthy
string goes through `int(...)`, which can raise (`none`). -/
def pyIntOr0 : PageVal → Option Int
  | .vnone => some 0
  | .vint n => some n
  | .vstr s => if s = "" then some 0 else pyIntOfString s

/-- Lookup in an insertion-ordered association list (Python `d.get(k)`). -/
def lookupAssoc {β : Type} : List (String × β) → String → Option β
  | [], _ => none
  | (a, b) :: t, k => if a = k then some b else lookupAssoc t k

/-- Python `d[k] = f(d.get(k, default))` on an insertion-ordered dict:
update in place when the key is present, append otherwise. -/
def updAssoc {β : Type} (m : List (String × β)) (k : String) (f : Option β → β) :
    List (String × β) :=
  match m with
  | [] => [(k, f none)]
  | (a, b) :: t => if a = k then (a, f (some b)) :: t else (a, b) :: updAssoc t k f

/-- Mutable state of the aggregation loop in `get_transactions`
(main.py lines 452-453): the annotated records (`items_all` after mutation),
the two review counters, and the two per-skill dicts. -/
structure AggSt where
  records : List TxRecord
  with_mr : Nat
  straight : Nat
  pages_by : List (String × Int)
  txcount_by : List (String × Nat)
deriving DecidableEq

/-- The initial accumulators of the aggregation loop (main.py lines 452-453). -/
def initAggSt : AggSt := ⟨[], 0, 0, [], []⟩

/-- One iteration of the aggregation loop body (main.py lines 455-471):
look the row's id up in the review map, annotate the row, bump the proper
review counter, and - only when the document-skill name is non-empty - coerce
`pageCount` (which can raise, hence `Option`) and bump the per-skill dicts. -/
def aggStep (rm : ReviewMap) (st : AggSt) (row : RawItem) : Option AggSt :=
  let info := rm row.transactionId
  let mr := if info.manual_review then "Yes" else "No"
  let dskill := info.document_skill_name
  let txrec : TxRecord := ⟨row, mr, dskill⟩
  let st1 : AggSt :=
    { st with
      records := st.records ++ [txrec],
      with_mr := if mr = "Yes" then st.with_mr + 1 else st.with_mr,
      straight := if mr = "Yes" then st.straight else st.straight + 1 }
  if dskill = "" then some st1
  else
    match pyIntOr0 row.pageCount with
    | none => none
    | some n =>
      some { st1 with
        pages_by := updAssoc st1.pages_by dskill (fun o => o.getD 0 + n),
        txcount_by := updAssoc st1.txcount_by dskill (fun o => o.getD 0 + 1) }

/-- The aggregation loop over `items_all` (main.py lines 455-471); `none`
when some iteration raises `ValueError` on the `int(...)` coercion. -/
def aggLoop (rm : ReviewMap) : AggSt → List RawItem → Option AggSt
  | st, [] => some st
  | st, row :: rest =>
    match aggStep rm st row with
    | none => none
    | some st' => aggLoop rm st' rest

/-- The whole fetch-and-aggregate step of `POST /transactions` after the
pages are in (main.py lines 452-474). -/
def aggregate (rm : ReviewMap) (items : List RawItem) : Option AggSt :=
  aggLoop rm initAggSt items

/-- `docskill_summary` (main.py lines 475-478): one entry per key of the two
per-skill dicts, pairing the page total with the transaction count.  The two
dicts always carry the same key set (they are bumped together), so the key
enumeration follows `pages_by`'s insertion order; Python iterates the union
as an unordered set, and no claim depends on entry order. -/
def docskillSummary (st : AggSt) : List (String × Int × Nat) :=
  st.pages_by.map (fun p => (p.1, p.2, (lookupAssoc st.txcount_by p.1).getD 0))

/-- `total_pages = sum(int(tx.get("pageCount") or 0) for tx in
transactions_cache)` (main.py line 130); `none` when some coercion raises. -/
def dashboardTotalPages : List TxRecord → Option Int
  | [] => some 0
  | tx :: rest =>
    match pyIntOr0 tx.item.pageCount with
    | none => none
    | some n => (dashboardTotalPages rest).map (fun s => s + n)

/-- Number of raw items whose review-map document-skill name is `k`
(the rows that feed group `k` of the per-skill dicts). -/
def countFor (rm : ReviewMap) (items : List RawItem) (k : String) : Nat :=
  (items.filter (fun row => (rm row.transactionId).document_skill_name == k)).length

/-- Sum of the coerced page counts of the raw items whose review-map
document-skill name is `k` (failed coercions read as 0; the claims using this
assume the aggregation succeeded, which forces every member coercion to
succeed). -/
def sumFor (rm : ReviewMap) (items : List RawItem) (k : String) : Int :=
  ((items.filter (fun row => (rm row.transactionId).document_skill_name == k)).map
    (fun row => (pyIntOr0 row.pageCount).getD 0)).sum

/-- One page of the `transactions/completed` response: `parsed["items"]` and
`parsed.get("totalItemCount", 0)` (main.py lines 440-442). -/
structure Page where
  items : List RawItem
  totalItemCount : Nat
deriving DecidableEq

/-- The pagination loop of `get_transactions` (main.py lines 417-445),
with fuel bounding the number of iterations.  `respond` maps the `Offset`
parameter to the server's response for that request (`none` = transport
error / non-2xx, the `except` branch of lines 430-438).  The loop state is
`(offset, total_items_fetched, total_item_count, items_all, offsets issued)`,
started as `(0, 0, 1, [], [])` (lines 417-419).  Result: `none` = fuel
exhausted (the loop has not terminated within `fuel` iterations);
`some (.error offs)` = a request failed after issuing offsets `offs`;
`some (.ok (items, offs))` = the loop exited normally. -/
def txLoopAux (respond : Nat → Option Page) :
    Nat → Nat → Nat → Nat → List RawItem → List Nat →
    Option (Except (List Nat) (List RawItem × List Nat))
  | 0, _offset, fetched, total, acc, offs =>
    if fetched < total then none else some (.ok (acc, offs))
  | fuel + 1, offset, fetched, total, acc, offs =>
    if fetched < total then
      match respond offset with
      | none => some (.error (offs ++ [offset]))
      | some p =>
        txLoopAux respond fuel (offset + 1000) (fetched + p.items.length)
          p.totalItemCount (acc ++ p.items) (offs ++ [offset])
    else some (.ok (acc, offs))

/-- The pagination loop from its initial state
`limit, offset, total_items_fetched = 1000, 0, 0; total_item_count = 1`
(main.py lines 417-418). -/
def txLoop (respond : Nat → Option Page) (fuel : Nat) :
    Option (Except (List Nat) (List RawItem × List Nat)) :=
  txLoopAux respond fuel 0 0 1 [] []

/-- The pagination loop terminates on response function `respond`: some
iteration bound suffices for it to exit (normally or with a request error). -/
def txTerminates (respond : Nat → Option Page) : Prop :=
  ∃ fuel, (txLoop respond fuel).isSome = true

/-- The query parameters of one page request (main.py lines 422-429).  The
current `src/main.py` builds this dict unconditionally; in particular
`TransactionStatus` is always present. -/
def buildTxParams (transaction_type skill_id start_iso end_iso : String)
    (offset limit : Nat) : List (String × String) :=
  [("TransactionStatus", transaction_type),
   ("skillId", skill_id),
   ("StartDate", start_iso),
   ("EndDate", end_iso),
   ("Offset", toString offset),
   ("Limit", toString limit)]

/-- One row of the QA report CSV as produced by `csv.DictReader`
(helpers.py lines 56-68), restricted to the three columns the code reads.
`csv.DictReader` fills the fields of a data row shorter than the header with
`None` (its default `restval`); that is this model's `none`.  A column absent
from the header altogether makes `row.get(col, "")` return `""`, encoded as
`some ""` (for `HasManualReview` the `str(...)` wrapping makes `None` and
absent behave the same anyway — neither is in the true-set). -/
structure CsvRow where
  transactionId : Option String
  hasManualReview : Option String
  documentSkillName : Option String
deriving DecidableEq

/-- Python `str(...)` applied to the optional field value at helpers.py
line 67: a string is itself, `None` prints as "None". -/
def pyStr : Option String → String
  | none => "None"
  | some s => s

/-- `str(row.get("HasManualReview", "")).strip().lower() in {"true", "1",
"yes"}` (helpers.py line 67). -/
def pyTruthyFlag (s : String) : Bool :=
  let v := pyLower (pyStrip s)
  v = "true" || v = "1" || v = "yes"

/-- The body of the CSV row loop (helpers.py lines 60-77): skip rows whose
stripped transaction id is blank, OR the manual-review flag into the entry,
and replace the document-skill name when the row's stripped name is
non-empty.  A `None` field (short data row) makes the source raise
`AttributeError` on `None.strip()` — at line 63 for `TransactionId` and at
line 68 for `DocumentSkillName` (line 67 is safe because of the `str(...)`
wrapping); there is no try/except, so the exception escapes the helper.
Modelled as `none`. -/
def reviewStep (m : ReviewMap) (row : CsvRow) : Option ReviewMap :=
  match row.transactionId with
  | none => none
  | some rawTid =>
    let txid := pyStrip rawTid
    if txid = "" then some m
    else
      let has_mr := pyTruthyFlag (pyStr row.hasManualReview)
      match row.documentSkillName with
      | none => none
      | some rawSkill =>
        let dskill := pyStrip rawSkill
        let entry := m txid
        let entry1 : ReviewEntry := ⟨entry.manual_review || has_mr,
          if dskill = "" then entry.document_skill_name else dskill⟩
        some (fun k => if k = txid then entry1 else m k)

/-- The CSV row loop of helpers.py lines 60-77; `none` when some row makes
`None.strip()` raise. -/
def reviewLoop : ReviewMap → List CsvRow → Option ReviewMap
  | m, [] => some m
  | m, row :: rest =>
    match reviewStep m row with
    | none => none
    | some m' => reviewLoop m' rest

/-- The review map built from the parsed CSV rows (helpers.py lines 59-77),
`none` when the row loop raises. -/
def buildReviewMap (rows : List CsvRow) : Option ReviewMap :=
  reviewLoop emptyReviewMap rows

/-- The QA reporting response: HTTP status, raw body text, and the body as
parsed by `csv.DictReader` (the CSV parser is the external collaborator; an
empty body has no rows).  `rows = none` models `csv.Error` raised while
iterating the reader (e.g. a field over `csv.field_size_limit`); since no
partial state escapes the helper, a mid-iteration raise is observationally
an upfront one. -/
structure ReviewResponse where
  status : Nat
  body : String
  rows : Option (List CsvRow)

/-- `fetch_tx_review_and_docskill` (helpers.py lines 30-80) as a function of
the reporting response: non-200 or empty body yields the empty mapping
(lines 52-54); otherwise the CSV rows are folded into the map, and the fold
itself can raise (`none`) — the function has no try/except, so the exception
propagates to the caller. -/
def fetch_tx_review_and_docskill (resp : ReviewResponse) : Option ReviewMap :=
  if resp.status ≠ 200 ∨ resp.body = "" then some emptyReviewMap
  else
    match resp.rows with
    | none => none
    | some rows => buildReviewMap rows

/-- A skill as cached from the skills endpoint (main.py line 393). -/
structure Skill where
  id : String
  name : String
  type : String
deriving DecidableEq

/-- `review_summary` (main.py lines 20 and 474). -/
structure ReviewSummary where
  with_manual_review : Nat
  straight_through : Nat
deriving DecidableEq

/-- The process-wide mutable globals of main.py (lines 16-23). -/
structure AppState where
  bearer_token : Option String
  vantage_host : Option String
  skills_cache : List Skill
  transactions_cache : List TxRecord
  review_summary : ReviewSummary
  docskill_summary : List (String × Int × Nat)
  last_error : String
  search_attempted : Bool
deriving DecidableEq

/-- Python truthiness of an optional string (`not bearer_token` is true for
both `None` and `""`). -/
def optTruthy : Option String → Bool
  | none => false
  | some s => s != ""

/-- Outcome of the `POST /transactions` handler: a 303 redirect carrying the
new global state, or an uncaught exception (HTTP 500) from the `int(...)`
coercion, carrying the globals as they stand when it is raised. -/
inductive HandlerResult where
  | redirect (st : AppState) : HandlerResult
  | serverError (st : AppState) : HandlerResult
deriving DecidableEq

/-- The `POST /transactions` handler `get_transactions` (main.py lines
402-480).  `respond` is the transaction server's response per issued
`Offset`; `resp` is the QA reporting response; `fuel` bounds pagination
iterations (`none` result = the loop had not terminated).  Unauthenticated
requests redirect at once with the state untouched (lines 406-407); a failed
page request sets `last_error` and clears the transaction cache (lines
435-438); an exception raised by the review-report parsing (line 449, which
has no try/except around it) or a `ValueError` in the aggregation escapes
the handler with the globals still holding the pre-loop values (no cache
assignment has happened yet); otherwise the caches and summaries are
replaced wholesale (lines 473-478).  The four form fields do not influence the modelled state (they
only feed the request parameters, abstracted by `respond`). -/
def getTransactionsHandler (st : AppState)
    (_skill_id _transaction_type _start_date _end_date : String)
    (respond : Nat → Option Page) (resp : ReviewResponse) (fuel : Nat) :
    Option HandlerResult :=
  if !optTruthy st.bearer_token || !optTruthy st.vantage_host then
    some (.redirect st)
  else
    let st1 := { st with last_error := "", search_attempted := true }
    match txLoop respond fuel with
    | none => none
    | some (.error _) =>
      some (.redirect { st1 with
        last_error := "Transactions fetch failed", transactions_cache := [] })
    | some (.ok (items, _)) =>
      match fetch_tx_review_and_docskill resp with
      | none => some (.serverError st1)
      | some rm =>
        match aggregate rm items with
        | none => some (.serverError st1)
        | some out =>
          some (.redirect { st1 with
            transactions_cache := out.records,
            review_summary := ⟨out.with_mr, out.straight⟩,
            docskill_summary := docskillSummary out })

/-- The parsed token-endpoint response (main.py lines 369-383): status, the
optional parsed JSON fields read by the error path and by
`r.json().get("access_token")`, and the raw body text.  A JSON parse failure
is the case where both error fields are `none` (the `except` at line 375
then falls back to `r.text`). -/
structure TokenResponse where
  status : Nat
  access_token : Option String
  error_description : Option String
  error : Option String
  text : String
deriving DecidableEq

/-- The skills-endpoint response (main.py lines 390-393): whether
`raise_for_status()` passes, and the parsed skill list. -/
structure SkillsResponse where
  ok : Bool
  skills : List Skill
deriving DecidableEq

/-- Python `a or b` on an optional string against a fallback: a missing or
empty (falsy) value falls through. -/
def pyOrStr (a : Option String) (b : String) : String :=
  match a with
  | some s => if s = "" then b else s
  | none => b

/-- `err_json.get("error_description") or err_json.get("error") or r.text`
(main.py line 374), with the parse-failure fallback to `r.text`. -/
def authErrMsg (r : TokenResponse) : String :=
  pyOrStr r.error_description (pyOrStr r.error r.text)

/-- The `POST /authenticate` handler (main.py lines 351-398).  `tokenResp =
none` is a transport error (`RequestException`, line 379) with message text
`excMsg`; `skillsResp = none` likewise for the skills call.  Note that
`vantage_host = url.strip()`, `last_error = ""` and `search_attempted =
False` are executed before the token request (lines 354-356), so they take
effect on every path, including failures. -/
def authenticate (st : AppState) (url : String) (tokenResp : Option TokenResponse)
    (skillsResp : Option SkillsResponse) (excMsg : String) : AppState :=
  let st0 := { st with
    vantage_host := some (pyStrip url), last_error := "", search_attempted := false }
  match tokenResp with
  | none => { st0 with last_error := "Login Failed. Error: " ++ excMsg }
  | some r =>
    if r.status ≠ 200 then
      { st0 with last_error := "Login Failed. Error: " ++ authErrMsg r }
    else
      let st1 := { st0 with bearer_token := r.access_token }
      match skillsResp with
      | none =>
        { st1 with skills_cache := [], last_error := "Failed to load skills: " ++ excMsg }
      | some s =>
        if s.ok then { st1 with skills_cache := s.skills }
        else
          { st1 with
            skills_cache := [],
            last_error := "Failed to load skills: " ++ excMsg }

/-- A raw item with every field at its neutral value, used as the generic
payload element in concrete pagination scenarios. -/
def defaultRawItem : RawItem := ⟨"", "", .vnone, "", []⟩

/-! ## Pagination lemmas -/

theorem txLoopAux_step {respond : Nat → Option Page} {fuel offset fetched total : Nat}
    {acc : List RawItem} {offs : List Nat} {p : Page}
    (hlt : fetched < total) (hresp : respond offset = some p) :
    txLoopAux respond (fuel + 1) offset fetched total acc offs =
      txLoopAux respond fuel (offset + 1000) (fetched + p.items.length)
        p.totalItemCount (acc ++ p.items) (offs ++ [offset]) := by
  simp [txLoopAux, hlt, hresp]

theorem txLoopAux_exit {respond : Nat → Option Page} {fuel offset fetched total : Nat}
    {acc : List RawItem} {offs : List Nat} (h : ¬ fetched < total) :
    txLoopAux respond fuel offset fetched total acc offs = some (.ok (acc, offs)) := by
  cases fuel <;> simp [txLoopAux, h]

/-- A server that always reports 5 remaining transactions but never returns
an item: every page response is `{"items": [], "totalItemCount": 5}`. -/
def stallingServer : Nat → Option Page := fun _ => some ⟨[], 5⟩

/-- Counterexample to claim C2: against `stallingServer`, which answers every
page request with zero items and `totalItemCount = 5`, the pagination loop of
`get_transactions` never exits — no iteration bound suffices — because the
loop has no zero-items guard: `total_items_fetched` stays 0 while
`total_item_count` stays 5. -/
theorem tx_loop_not_terminating_on_empty_pages : ¬ txTerminates stallingServer := by
  rintro ⟨fuel, hfuel⟩
  have key : ∀ f offset acc offs,
      txLoopAux stallingServer f offset 0 5 acc offs = none := by
    intro f
    induction f with
    | zero =>
      intro offset acc offs
      simp [txLoopAux]
    | succ f ih =>
      intro offset acc offs
      rw [txLoopAux_step (by norm_num) (rfl : stallingServer offset = some ⟨[], 5⟩)]
      simpa using ih (offset + 1000) acc (offs ++ [offset])
  cases fuel with
  | zero =>
    rw [txLoop] at hfuel
    simp [txLoopAux] at hfuel
  | succ f =>
    rw [txLoop,
      txLoopAux_step (by norm_num) (rfl : stallingServer 0 = some ⟨[], 5⟩)] at hfuel
    simp only [List.length_nil, Nat.add_zero, List.append_nil, List.nil_append] at hfuel
    rw [key f 1000 [] [0]] at hfuel
    simp at hfuel

/-- Claim C2 (amended): the pagination loop increments the offset by the
fixed page size (1000) each iteration and exits once the items fetched reach
the most recently reported total; in particular it terminates whenever every
page response is non-empty and reports a constant total.  It does NOT
terminate unconditionally on a zero-item page: there is no zero-items guard
in `src/main.py` (see `tx_loop_not_terminating_on_empty_pages`). -/
theorem tx_loop_terminates_of_nonempty_const_total (respond : Nat → Option Page)
    (T : Nat) (h : ∀ o, ∃ p, respond o = some p ∧ p.items ≠ [] ∧ p.totalItemCount = T) :
    txTerminates respond := by
  have key : ∀ fuel offset fetched acc offs, T ≤ fetched + fuel →
      (txLoopAux respond fuel offset fetched T acc offs).isSome = true := by
    intro fuel
    induction fuel with
    | zero =>
      intro offset fetched acc offs hle
      rw [txLoopAux_exit (by omega)]
      rfl
    | succ f ih =>
      intro offset fetched acc offs hle
      by_cases hlt : fetched < T
      · obtain ⟨p, hp, hne, hT⟩ := h offset
        rw [txLoopAux_step hlt hp, hT]
        apply ih
        have hpos : 0 < p.items.length := List.length_pos.mpr hne
        omega
      · rw [txLoopAux_exit hlt]
        rfl
  refine ⟨T + 2, ?_⟩
  rw [txLoop]
  obtain ⟨p, hp, hne, hT⟩ := h 0
  rw [show T + 2 = (T + 1) + 1 from rfl, txLoopAux_step (by norm_num) hp, hT]
  apply key
  have hpos : 0 < p.items.length := List.length_pos.mpr hne
  omega

/-- A server that returns one item per page and reports a total of 1. -/
def singleItemServer : Nat → Option Page := fun _ => some ⟨[defaultRawItem], 1⟩

/-- Witness for the amended claim C2 at a concrete server. -/
theorem tx_loop_terminates_witness : txTerminates singleItemServer :=
  tx_loop_terminates_of_nonempty_const_total singleItemServer 1
    (fun _ => ⟨⟨[defaultRawItem], 1⟩, rfl, by simp, rfl⟩)

/-- The mock server of claim C3: it reports `totalItemCount = 2500` on every
page and returns full pages of 1000 items at offsets 0 and 1000 and the
500-item remainder at offset 2000. -/
def server2500 : Nat → Option Page := fun o =>
  if o = 0 then some ⟨List.replicate 1000 defaultRawItem, 2500⟩
  else if o = 1000 then some ⟨List.replicate 1000 defaultRawItem, 2500⟩
  else if o = 2000 then some ⟨List.replicate 500 defaultRawItem, 2500⟩
  else some ⟨[], 2500⟩

/-- Claim C3: against a server reporting `totalItemCount = 2500` with full
pages of size 1000, the transaction fetch issues exactly 3 page requests,
with `Offset` values 0, 1000, 2000 in that order, and accumulates exactly
2500 items before the review-report call (5 iterations of fuel more than
suffice: the loop stops by its own guard after the third request). -/
theorem pagination_three_requests_2500 :
    txLoop server2500 5 =
      some (.ok (List.replicate 2500 defaultRawItem, [0, 1000, 2000])) ∧
    (List.replicate 2500 defaultRawItem).length = 2500 := by
  constructor
  · have h0 : server2500 0 = some ⟨List.replicate 1000 defaultRawItem, 2500⟩ := rfl
    have h1 : server2500 1000 = some ⟨List.replicate 1000 defaultRawItem, 2500⟩ := rfl
    have h2 : server2500 2000 = some ⟨List.replicate 500 defaultRawItem, 2500⟩ := rfl
    rw [txLoop, show (5 : Nat) = 4 + 1 from rfl, txLoopAux_step (by norm_num) h0]
    simp only [List.length_replicate, List.nil_append]
    norm_num
    rw [show (4 : Nat) = 3 + 1 from rfl, txLoopAux_step (by norm_num) h1]
    simp only [List.length_replicate]
    norm_num
    rw [show (3 : Nat) = 2 + 1 from rfl, txLoopAux_step (by norm_num) h2]
    simp only [List.length_replicate]
    norm_num
    rw [txLoopAux_exit (by norm_num)]
  · exact List.length_replicate 2500 defaultRawItem

/-! ## Aggregation counting lemmas -/

theorem aggStep_counts {rm : ReviewMap} {st : AggSt} {row : RawItem} {st' : AggSt}
    (h : aggStep rm st row = some st') :
    st'.with_mr + st'.straight = st.with_mr + st.straight + 1 ∧
    st'.records.length = st.records.length + 1 := by
  simp only [aggStep] at h
  split at h
  · obtain rfl := (Option.some.inj h).symm
    constructor
    · simp only []
      split <;> simp <;> omega
    · simp
  · split at h
    · exact absurd h (by simp)
    · obtain rfl := (Option.some.inj h).symm
      constructor
      · simp only []
        split <;> simp <;> omega
      · simp

theorem aggLoop_counts (rm : ReviewMap) :
    ∀ (items : List RawItem) (st out : AggSt), aggLoop rm st items = some out →
      out.with_mr + out.straight = st.with_mr + st.straight + items.length ∧
      out.records.length = st.records.length + items.length := by
  intro items
  induction items with
  | nil =>
    intro st out h
    obtain rfl : st = out := Option.some.inj h
    simp
  | cons row rest ih =>
    intro st out h
    simp only [aggLoop] at h
    cases hstep : aggStep rm st row with
    | none => rw [hstep] at h; exact absurd h (by simp)
    | some st1 =>
      rw [hstep] at h
      obtain ⟨h1, h2⟩ := aggStep_counts hstep
      obtain ⟨h3, h4⟩ := ih st1 out h
      constructor
      · simp only [List.length_cons]
        omega
      · simp only [List.length_cons]
        omega

/-- Claim C1: for every list of raw transaction items and every review map,
when the fetch-and-aggregate step of `POST /transactions` completes,
`review_summary.with_manual_review + review_summary.straight_through` equals
the number of cached transaction records, which equals the number of raw
items — each record is counted in exactly one of the two buckets. -/
theorem review_summary_partition (rm : ReviewMap) (items : List RawItem) (out : AggSt)
    (h : aggregate rm items = some out) :
    out.with_mr + out.straight = out.records.length ∧
    out.records.length = items.length := by
  obtain ⟨h1, h2⟩ := aggLoop_counts rm items initAggSt out h
  simp only [initAggSt] at h1 h2
  constructor
  · simp at h2
    omega
  · simpa using h2

/-- The review summary partition, instantiated at one concrete item under
the empty review map. -/
def witnessItem : RawItem := ⟨"w1", "Processed", .vint 2, "2025-01-01T00:00:00Z", []⟩

def witnessOut : AggSt :=
  ⟨[⟨witnessItem, "No", ""⟩], 0, 1, [], []⟩

/-- Witness for claim C1 at a concrete input. -/
theorem review_summary_partition_witness :
    witnessOut.with_mr + witnessOut.straight = witnessOut.records.length ∧
    witnessOut.records.length = [witnessItem].length :=
  review_summary_partition emptyReviewMap [witnessItem] witnessOut rfl

/-! ## Degradation to the empty review map (C4) -/

theorem aggLoop_empty_map :
    ∀ (items : List RawItem) (st : AggSt),
      aggLoop emptyReviewMap st items =
        some { st with
          records := st.records ++ items.map (fun it => ⟨it, "No", ""⟩),
          straight := st.straight + items.length } := by
  intro items
  induction items with
  | nil => intro st; simp [aggLoop]
  | cons row rest ih =>
    intro st
    have hstep : aggStep emptyReviewMap st row =
        some { st with
          records := st.records ++ [⟨row, "No", ""⟩],
          straight := st.straight + 1 } := by
      simp [aggStep, emptyReviewMap, defaultEntry]
    simp only [aggLoop, hstep]
    rw [ih]
    simp [AggSt.mk.injEq, List.append_assoc]
    omega

/-- Witness state: an authenticated session with empty caches. -/
def witnessState : AppState :=
  ⟨some "tok", some "vantage-au.abbyy.com", [], [], ⟨0, 0⟩, [], "", false⟩

/-- A 200 review-report response whose single data row is one field short:
`csv.DictReader` fills `DocumentSkillName` with `None`, so helpers.py line
68 raises `AttributeError` on `None.strip()`. -/
def malformedReviewResp : ReviewResponse :=
  ⟨200, "TransactionId,HasManualReview,DocumentSkillName\nt1,true",
   some [⟨some "t1", some "true", none⟩]⟩

/-- Counterexample to claim C4 (its unparsable-body trigger): on a 200
response with a malformed CSV body — a short data row whose
`DocumentSkillName` was filled with `None` — `fetch_tx_review_and_docskill`
does NOT return an empty mapping: `None.strip()` raises out of the helper
(there is no try/except in helpers.py nor around the call at main.py line
449), and the overall fetch aborts with a server error, returning no
records at all. -/
theorem review_parse_failure_aborts :
    fetch_tx_review_and_docskill malformedReviewResp = none ∧
    getTransactionsHandler witnessState "s" "Processed" "2025-01-01" "2025-01-02"
        singleItemServer malformedReviewResp 3 =
      some (.serverError { witnessState with last_error := "", search_attempted := true }) := by
  constructor
  · rfl
  · rfl

/-- Claim C4 (amended): when the review-report call returns a non-200 status
or an empty body, `fetch_tx_review_and_docskill` yields the empty mapping
rather than an error; the `POST /transactions` handler then still completes
on the fetched pages and returns all fetched records, each annotated with
`manualReview = "No"` and an empty `documentSkillName`, with
`review_summary.with_manual_review = 0`, `straight_through` equal to the
record count, and an empty `docskill_summary`.  (An unparsable 200 body,
however, raises inside the helper's row loop and aborts the whole fetch —
see `review_parse_failure_aborts`.) -/
theorem review_failure_degrades_gracefully (st : AppState)
    (s1 s2 s3 s4 : String) (respond : Nat → Option Page) (resp : ReviewResponse)
    (fuel : Nat) (items : List RawItem) (offs : List Nat)
    (hb : optTruthy st.bearer_token = true) (hh : optTruthy st.vantage_host = true)
    (hstatus : resp.status ≠ 200 ∨ resp.body = "")
    (hloop : txLoop respond fuel = some (.ok (items, offs))) :
    fetch_tx_review_and_docskill resp = some emptyReviewMap ∧
    getTransactionsHandler st s1 s2 s3 s4 respond resp fuel =
      some (.redirect { st with
        last_error := "",
        search_attempted := true,
        transactions_cache := items.map (fun it => ⟨it, "No", ""⟩),
        review_summary := ⟨0, items.length⟩,
        docskill_summary := [] }) := by
  have hfetch : fetch_tx_review_and_docskill resp = some emptyReviewMap := by
    rw [fetch_tx_review_and_docskill, if_pos hstatus]
  refine ⟨hfetch, ?_⟩
  have hagg : aggregate emptyReviewMap items =
      some { initAggSt with
        records := items.map (fun it => ⟨it, "No", ""⟩),
        straight := items.length } := by
    rw [aggregate, aggLoop_empty_map items initAggSt]
    simp [initAggSt]
  simp only [getTransactionsHandler, hb, hh, Bool.not_true, Bool.or_self, Bool.false_eq_true,
    if_false, hloop, hfetch, hagg]
  simp [docskillSummary, initAggSt]

/-- A failing review-report response (HTTP 500). -/
def failingReviewResp : ReviewResponse := ⟨500, "oops", some []⟩

/-- Witness for the amended claim C4 at a concrete state, server and
failing report. -/
theorem review_failure_degrades_witness :
    fetch_tx_review_and_docskill failingReviewResp = some emptyReviewMap ∧
    getTransactionsHandler witnessState "s" "Processed" "2025-01-01" "2025-01-02"
        singleItemServer failingReviewResp 3 =
      some (.redirect { witnessState with
        last_error := "",
        search_attempted := true,
        transactions_cache := [defaultRawItem].map (fun it => ⟨it, "No", ""⟩),
        review_summary := ⟨0, [defaultRawItem].length⟩,
        docskill_summary := [] }) :=
  review_failure_degrades_gracefully witnessState "s" "Processed" "2025-01-01" "2025-01-02"
    singleItemServer failingReviewResp 3 [defaultRawItem] [0] rfl rfl (Or.inl (by decide)) rfl

/-! ## Association list lemmas and the per-skill grouping invariant (C5) -/

theorem lookupAssoc_updAssoc_self {β : Type} (m : List (String × β)) (k : String)
    (f : Option β → β) : lookupAssoc (updAssoc m k f) k = some (f (lookupAssoc m k)) := by
  induction m with
  | nil => simp [updAssoc, lookupAssoc]
  | cons p t ih =>
    by_cases hp : p.1 = k
    · simp [updAssoc, lookupAssoc, hp]
    · simp [updAssoc, lookupAssoc, hp, ih]

theorem lookupAssoc_updAssoc_ne {β : Type} (m : List (String × β)) (k k' : String)
    (f : Option β → β) (h : k' ≠ k) :
    lookupAssoc (updAssoc m k f) k' = lookupAssoc m k' := by
  induction m with
  | nil => simp [updAssoc, lookupAssoc, h.symm]
  | cons p t ih =>
    by_cases hp : p.1 = k
    · simp [updAssoc, lookupAssoc, hp, h.symm]
    · simp [updAssoc, lookupAssoc, hp, ih]

theorem countFor_cons (rm : ReviewMap) (row : RawItem) (rest : List RawItem)
    (k : String) :
    countFor rm (row :: rest) k =
      (if (rm row.transactionId).document_skill_name = k then 1 else 0) +
        countFor rm rest k := by
  by_cases hd : (rm row.transactionId).document_skill_name = k
  · simp [countFor, List.filter_cons, hd, Nat.add_comm]
  · simp [countFor, List.filter_cons, hd]

theorem sumFor_cons (rm : ReviewMap) (row : RawItem) (rest : List RawItem)
    (k : String) :
    sumFor rm (row :: rest) k =
      (if (rm row.transactionId).document_skill_name = k
        then (pyIntOr0 row.pageCount).getD 0 else 0) + sumFor rm rest k := by
  by_cases hd : (rm row.transactionId).document_skill_name = k
  · simp [sumFor, List.filter_cons, hd]
  · simp [sumFor, List.filter_cons, hd]

/-- What one aggregation step does to the two per-skill dicts. -/
theorem aggStep_group {rm : ReviewMap} {st : AggSt} {row : RawItem} {st' : AggSt}
    (h : aggStep rm st row = some st') :
    ((rm row.transactionId).document_skill_name = "" ∧
      st'.pages_by = st.pages_by ∧ st'.txcount_by = st.txcount_by) ∨
    ((rm row.transactionId).document_skill_name ≠ "" ∧ ∃ n,
      pyIntOr0 row.pageCount = some n ∧
      st'.pages_by = updAssoc st.pages_by (rm row.transactionId).document_skill_name
        (fun o => o.getD 0 + n) ∧
      st'.txcount_by = updAssoc st.txcount_by (rm row.transactionId).document_skill_name
        (fun o => o.getD 0 + 1)) := by
  by_cases hde : (rm row.transactionId).document_skill_name = ""
  · left
    simp only [aggStep, hde, if_true, ite_true, if_pos] at h
    obtain rfl := (Option.some.inj h).symm
    exact ⟨hde, rfl, rfl⟩
  · right
    cases hpc : pyIntOr0 row.pageCount with
    | none => simp [aggStep, hde, hpc] at h
    | some n =>
      simp only [aggStep, hde, hpc, if_neg, ite_false] at h
      obtain rfl := (Option.some.inj h).symm
      exact ⟨hde, n, rfl, rfl, rfl⟩

/-- Phantom-page lemma: when no processed row resolves to skill `k`, the
page-count sum for `k` is zero. -/
theorem sumFor_eq_zero (rm : ReviewMap) (items : List RawItem) (k : String)
    (h : countFor rm items k = 0) : sumFor rm items k = 0 := by
  rw [countFor, List.length_eq_zero] at h
  rw [sumFor, h]
  rfl

/-- The value invariant of the aggregation loop: for a fixed non-empty skill
name `k`, the per-skill dict values grow by exactly the page-count sum
(resp. member count) of the processed rows grouped under `k`. -/
theorem aggLoop_group_values (rm : ReviewMap) (k : String) (hk : k ≠ "") :
    ∀ (items : List RawItem) (st out : AggSt), aggLoop rm st items = some out →
      (lookupAssoc out.pages_by k).getD 0 =
        (lookupAssoc st.pages_by k).getD 0 + sumFor rm items k ∧
      (lookupAssoc out.txcount_by k).getD 0 =
        (lookupAssoc st.txcount_by k).getD 0 + countFor rm items k := by
  intro items
  induction items with
  | nil =>
    intro st out h
    obtain rfl : st = out := Option.some.inj h
    simp [countFor, sumFor]
  | cons row rest ih =>
    intro st out h
    simp only [aggLoop] at h
    cases hstep : aggStep rm st row with
    | none => rw [hstep] at h; exact absurd h (by simp)
    | some st1 =>
      rw [hstep] at h
      obtain ⟨ihp, ihc⟩ := ih st1 out h
      rw [countFor_cons, sumFor_cons]
      rcases aggStep_group hstep with ⟨hde, hp, hc⟩ | ⟨hde, n, hpc, hp, hc⟩
      · have hnk : (rm row.transactionId).document_skill_name ≠ k := by
          rw [hde]; exact fun e => hk e.symm
        rw [if_neg hnk, if_neg hnk, ihp, ihc, hp, hc]
        omega
      · by_cases hdk : (rm row.transactionId).document_skill_name = k
        · rw [hdk] at hp hc
          have hvp : (lookupAssoc st1.pages_by k).getD 0 =
              (lookupAssoc st.pages_by k).getD 0 + n := by
            rw [hp, lookupAssoc_updAssoc_self]
            rfl
          have hvc : (lookupAssoc st1.txcount_by k).getD 0 =
              (lookupAssoc st.txcount_by k).getD 0 + 1 := by
            rw [hc, lookupAssoc_updAssoc_self]
            rfl
          rw [if_pos hdk, if_pos hdk, ihp, ihc, hvp, hvc, hpc]
          constructor
          · simp only [Option.getD_some]
            omega
          · omega
        · have hlp : lookupAssoc st1.pages_by k = lookupAssoc st.pages_by k := by
            rw [hp]; exact lookupAssoc_updAssoc_ne _ _ _ _ (Ne.symm hdk)
          have hlc : lookupAssoc st1.txcount_by k = lookupAssoc st.txcount_by k := by
            rw [hc]; exact lookupAssoc_updAssoc_ne _ _ _ _ (Ne.symm hdk)
          rw [if_neg hdk, if_neg hdk, ihp, ihc, hlp, hlc]
          omega

/-- The presence invariant of the aggregation loop: the per-skill pages dict
has no entry for `k` exactly when it started without one and no processed
row resolves to skill `k`. -/
theorem aggLoop_group_presence (rm : ReviewMap) (k : String) (hk : k ≠ "") :
    ∀ (items : List RawItem) (st out : AggSt), aggLoop rm st items = some out →
      (lookupAssoc out.pages_by k = none ↔
        (lookupAssoc st.pages_by k = none ∧ countFor rm items k = 0)) := by
  intro items
  induction items with
  | nil =>
    intro st out h
    obtain rfl : st = out := Option.some.inj h
    simp [countFor]
  | cons row rest ih =>
    intro st out h
    simp only [aggLoop] at h
    cases hstep : aggStep rm st row with
    | none => rw [hstep] at h; exact absurd h (by simp)
    | some st1 =>
      rw [hstep] at h
      have ihp := ih st1 out h
      rw [countFor_cons]
      rcases aggStep_group hstep with ⟨hde, hp, _⟩ | ⟨hde, n, hpc, hp, _⟩
      · have hnk : (rm row.transactionId).document_skill_name ≠ k := by
          rw [hde]; exact fun e => hk e.symm
        rw [ihp, hp, if_neg hnk]
        simp
      · by_cases hdk : (rm row.transactionId).document_skill_name = k
        · rw [hdk] at hp
          have hsome : lookupAssoc st1.pages_by k =
              some ((lookupAssoc st.pages_by k).getD 0 + n) := by
            rw [hp, lookupAssoc_updAssoc_self]
          rw [ihp, hsome, if_pos hdk]
          simp
        · have hlp : lookupAssoc st1.pages_by k = lookupAssoc st.pages_by k := by
            rw [hp]; exact lookupAssoc_updAssoc_ne _ _ _ _ (Ne.symm hdk)
          rw [ihp, hlp, if_neg hdk]
          simp

theorem lookupAssoc_map_pair {β γ : Type} (g : String → β → γ)
    (m : List (String × β)) (k : String) :
    lookupAssoc (m.map (fun p => (p.1, g p.1 p.2))) k =
      (lookupAssoc m k).map (g k) := by
  induction m with
  | nil => rfl
  | cons p t ih =>
    by_cases hp : p.1 = k
    · simp [lookupAssoc, hp]
    · simp [lookupAssoc, hp, ih]

/-- The aggregation loop never creates an entry under the empty skill name. -/
theorem aggLoop_no_empty_key (rm : ReviewMap) :
    ∀ (items : List RawItem) (st out : AggSt), aggLoop rm st items = some out →
      lookupAssoc st.pages_by "" = none → lookupAssoc out.pages_by "" = none := by
  intro items
  induction items with
  | nil =>
    intro st out h
    obtain rfl : st = out := Option.some.inj h
    exact id
  | cons row rest ih =>
    intro st out h hst
    simp only [aggLoop] at h
    cases hstep : aggStep rm st row with
    | none => rw [hstep] at h; exact absurd h (by simp)
    | some st1 =>
      rw [hstep] at h
      refine ih st1 out h ?_
      rcases aggStep_group hstep with ⟨_, hp, _⟩ | ⟨hde, n, _, hp, _⟩
      · rw [hp]; exact hst
      · rw [hp, lookupAssoc_updAssoc_ne _ _ _ _ (Ne.symm hde)]
        exact hst

/-- Claim C5: in the aggregation result, a record with an empty
document-skill name contributes to no entry of `docskill_summary`; for every
non-empty skill name `k`, `docskill_summary` has an entry for `k` exactly
when some raw item resolves to skill `k`, whose page total is the sum of the
members\' page counts (missing or null `pageCount` read as 0) and whose
transaction count is the number of member records. -/
theorem docskill_summary_characterization (rm : ReviewMap) (items : List RawItem)
    (out : AggSt) (k : String) (h : aggregate rm items = some out) (hk : k ≠ "") :
    lookupAssoc (docskillSummary out) k =
      (if countFor rm items k = 0 then none
       else some (sumFor rm items k, countFor rm items k)) ∧
    lookupAssoc (docskillSummary out) "" = none := by
  have hval := aggLoop_group_values rm k hk items initAggSt out h
  have hpres := aggLoop_group_presence rm k hk items initAggSt out h
  have hne := aggLoop_no_empty_key rm items initAggSt out h rfl
  have hmap : ∀ k', lookupAssoc (docskillSummary out) k' =
      (lookupAssoc out.pages_by k').map
        (fun p => (p, (lookupAssoc out.txcount_by k').getD 0)) := by
    intro k'
    exact lookupAssoc_map_pair (fun key v => (v, (lookupAssoc out.txcount_by key).getD 0))
      out.pages_by k'
  refine ⟨?_, by rw [hmap "", hne]; rfl⟩
  rw [hmap k]
  simp only [initAggSt, lookupAssoc] at hval hpres
  by_cases hc0 : countFor rm items k = 0
  · have hnone : lookupAssoc out.pages_by k = none := hpres.mpr ⟨trivial, hc0⟩
    rw [hnone, if_pos hc0]
    rfl
  · have hnn : lookupAssoc out.pages_by k ≠ none := by
      intro hcon
      exact hc0 (hpres.mp hcon).2
    cases hsome : lookupAssoc out.pages_by k with
    | none => exact absurd hsome hnn
    | some v =>
      rw [hsome] at hval
      have hv : v = sumFor rm items k := by
        have := hval.1
        simpa using this
      have hcnt : (lookupAssoc out.txcount_by k).getD 0 = countFor rm items k := by
        have := hval.2
        simpa using this
      rw [if_neg hc0]
      simp [hv, hcnt]

/-- A review map sending two ids to skill "Invoice" and one to "Claims". -/
def witnessReviewMap : ReviewMap := fun tid =>
  if tid = "t1" then ⟨true, "Invoice"⟩
  else if tid = "t2" then ⟨false, "Invoice"⟩
  else if tid = "t3" then ⟨false, "Claims"⟩
  else ⟨false, ""⟩

/-- Four raw items: two in "Invoice" (3 + 4 pages), one in "Claims", one
unknown to the review map (empty skill name). -/
def witnessItems : List RawItem :=
  [⟨"t1", "Processed", .vint 3, "", []⟩,
   ⟨"t2", "Processed", .vint 4, "", []⟩,
   ⟨"t3", "Processed", .vnone, "", []⟩,
   ⟨"t9", "Processed", .vint 7, "", []⟩]

def witnessOutC5 : AggSt :=
  ⟨[⟨⟨"t1", "Processed", .vint 3, "", []⟩, "Yes", "Invoice"⟩,
    ⟨⟨"t2", "Processed", .vint 4, "", []⟩, "No", "Invoice"⟩,
    ⟨⟨"t3", "Processed", .vnone, "", []⟩, "No", "Claims"⟩,
    ⟨⟨"t9", "Processed", .vint 7, "", []⟩, "No", ""⟩],
   1, 3, [("Invoice", 7), ("Claims", 0)], [("Invoice", 2), ("Claims", 1)]⟩

/-- Witness for claim C5 at a concrete aggregation run. -/
theorem docskill_summary_witness :
    lookupAssoc (docskillSummary witnessOutC5) "Invoice" =
      (if countFor witnessReviewMap witnessItems "Invoice" = 0 then none
       else some (sumFor witnessReviewMap witnessItems "Invoice",
                  countFor witnessReviewMap witnessItems "Invoice")) ∧
    lookupAssoc (docskillSummary witnessOutC5) "" = none :=
  docskill_summary_characterization witnessReviewMap witnessItems witnessOutC5
    "Invoice" rfl (by decide)

/-! ## Review-map semantics (C6) -/

/-- `lastNonEmptyD d L`: the most recently seen non-empty string in `L`,
defaulting to `d` — the accumulation discipline of
`if dskill: entry["document_skill_name"] = dskill` (helpers.py 75-76). -/
def lastNonEmptyD (d : String) (L : List String) : String :=
  L.foldl (fun a s => if s = "" then a else s) d

theorem reviewLoop_manual_review (tid : String) (htid : tid ≠ "") :
    ∀ (rows : List CsvRow) (m final : ReviewMap), reviewLoop m rows = some final →
      (final tid).manual_review =
        ((m tid).manual_review ||
          rows.any (fun r => r.transactionId.map pyStrip == some tid &&
            pyTruthyFlag (pyStr r.hasManualReview))) := by
  intro rows
  induction rows with
  | nil =>
    intro m final h
    obtain rfl : m = final := Option.some.inj h
    simp
  | cons r rest ih =>
    intro m final h
    simp only [reviewLoop] at h
    cases hstep : reviewStep m r with
    | none => rw [hstep] at h; exact absurd h (by simp)
    | some m' =>
      rw [hstep] at h
      rw [List.any_cons, ih m' final h]
      cases hrawt : r.transactionId with
      | none =>
        rw [reviewStep, hrawt] at hstep
        exact absurd hstep (by simp)
      | some rawTid =>
        simp only [reviewStep, hrawt] at hstep
        by_cases hrid : pyStrip rawTid = ""
        · rw [if_pos hrid] at hstep
          obtain rfl : m = m' := Option.some.inj hstep
          have hne : ((some rawTid : Option String).map pyStrip == some tid) = false := by
            rw [Option.map_some', hrid]
            exact beq_false_of_ne (by intro e; exact htid (Option.some.inj e).symm)
          rw [hne]
          simp
        · rw [if_neg hrid] at hstep
          cases hraws : r.documentSkillName with
          | none =>
            rw [hraws] at hstep
            exact absurd hstep (by simp)
          | some rawSkill =>
            rw [hraws] at hstep
            obtain rfl := (Option.some.inj hstep).symm
            by_cases heq : pyStrip rawTid = tid
            · simp [heq, Bool.or_assoc]
            · have hne : ((some rawTid : Option String).map pyStrip == some tid) = false := by
                rw [Option.map_some']
                exact beq_false_of_ne (by intro e; exact heq (Option.some.inj e))
              rw [hne]
              simp [Ne.symm heq]

theorem reviewLoop_docskill (tid : String) (htid : tid ≠ "") :
    ∀ (rows : List CsvRow) (m final : ReviewMap), reviewLoop m rows = some final →
      (final tid).document_skill_name =
        lastNonEmptyD (m tid).document_skill_name
          ((rows.filter (fun r => r.transactionId.map pyStrip == some tid)).map
            (fun r => pyStrip (r.documentSkillName.getD ""))) := by
  intro rows
  induction rows with
  | nil =>
    intro m final h
    obtain rfl : m = final := Option.some.inj h
    simp [lastNonEmptyD]
  | cons r rest ih =>
    intro m final h
    simp only [reviewLoop] at h
    cases hstep : reviewStep m r with
    | none => rw [hstep] at h; exact absurd h (by simp)
    | some m' =>
      rw [hstep] at h
      rw [ih m' final h, List.filter_cons]
      cases hrawt : r.transactionId with
      | none =>
        rw [reviewStep, hrawt] at hstep
        exact absurd hstep (by simp)
      | some rawTid =>
        simp only [reviewStep, hrawt] at hstep
        by_cases hrid : pyStrip rawTid = ""
        · rw [if_pos hrid] at hstep
          obtain rfl : m = m' := Option.some.inj hstep
          have hne : ((some rawTid : Option String).map pyStrip == some tid) = false := by
            rw [Option.map_some', hrid]
            exact beq_false_of_ne (by intro e; exact htid (Option.some.inj e).symm)
          rw [hne]
          simp
        · rw [if_neg hrid] at hstep
          cases hraws : r.documentSkillName with
          | none =>
            rw [hraws] at hstep
            exact absurd hstep (by simp)
          | some rawSkill =>
            rw [hraws] at hstep
            obtain rfl := (Option.some.inj hstep).symm
            by_cases heq : pyStrip rawTid = tid
            · have hbeq : ((some rawTid : Option String).map pyStrip == some tid) = true := by
                rw [Option.map_some', heq]
                exact beq_self_eq_true (some tid)
              rw [hbeq]
              simp only [if_true, List.map_cons, lastNonEmptyD, List.foldl_cons, hraws]
              simp [heq]
            · have hne : ((some rawTid : Option String).map pyStrip == some tid) = false := by
                rw [Option.map_some']
                exact beq_false_of_ne (by intro e; exact heq (Option.some.inj e))
              rw [hne]
              simp [Ne.symm heq]

/-- Claim C6: whenever the CSV report body parses without raising (the loop
completes, `buildReviewMap rows = some _`), the map built by
`fetch_tx_review_and_docskill` marks transaction id `tid` as manually
reviewed if and only if at least one row whose stripped `TransactionId`
equals `tid` (rows need not be unique per id) carries an explicit
true/1/yes `HasManualReview` flag (case-insensitive, whitespace-trimmed),
and its `document_skill_name` is the most recently seen non-empty stripped
`DocumentSkillName` among the rows with that id (the empty string if there
is none).  `e` is the entry the built map assigns to `tid`. -/
theorem review_map_semantics (rows : List CsvRow) (tid : String) (e : ReviewEntry)
    (hbuild : (buildReviewMap rows).map (fun m => m tid) = some e) (htid : tid ≠ "") :
    (e.manual_review = true ↔
      ∃ r ∈ rows, r.transactionId.map pyStrip = some tid ∧
        pyTruthyFlag (pyStr r.hasManualReview) = true) ∧
    e.document_skill_name =
      lastNonEmptyD "" ((rows.filter (fun r => r.transactionId.map pyStrip == some tid)).map
        (fun r => pyStrip (r.documentSkillName.getD ""))) := by
  cases hb : buildReviewMap rows with
  | none =>
    rw [hb] at hbuild
    exact absurd hbuild (by simp)
  | some m =>
    rw [hb] at hbuild
    obtain rfl : m tid = e := by simpa using hbuild
    rw [buildReviewMap] at hb
    constructor
    · rw [reviewLoop_manual_review tid htid rows emptyReviewMap m hb]
      simp only [emptyReviewMap, defaultEntry, Bool.false_or]
      rw [List.any_eq_true]
      constructor
      · rintro ⟨r, hr, hcond⟩
        rw [Bool.and_eq_true, beq_iff_eq] at hcond
        exact ⟨r, hr, hcond⟩
      · rintro ⟨r, hr, h1, h2⟩
        exact ⟨r, hr, by rw [Bool.and_eq_true, beq_iff_eq]; exact ⟨h1, h2⟩⟩
    · rw [reviewLoop_docskill tid htid rows emptyReviewMap m hb]
      rfl

/-- Concrete CSV rows (all three fields present, so parsing succeeds): id
"t1" appears twice (a duplicate with whitespace and an upper-case flag), id
"t2" once. -/
def witnessRows : List CsvRow :=
  [⟨some " t1 ", some "no", some "Invoices"⟩,
   ⟨some "t1", some " TRUE ", some ""⟩,
   ⟨some "t2", some "1", some "Claims"⟩]

/-- The entry the built map assigns to "t1" on `witnessRows`: reviewed via
the second row, skill "Invoices" kept from the first since the second row
has an empty skill. -/
def witnessEntry : ReviewEntry := ⟨true, "Invoices"⟩

/-- Witness for claim C6 at a concrete parsed body and id "t1". -/
theorem review_map_semantics_witness :
    (witnessEntry.manual_review = true ↔
      ∃ r ∈ witnessRows, r.transactionId.map pyStrip = some "t1" ∧
        pyTruthyFlag (pyStr r.hasManualReview) = true) ∧
    witnessEntry.document_skill_name =
      lastNonEmptyD "" ((witnessRows.filter (fun r => r.transactionId.map pyStrip == some "t1")).map
        (fun r => pyStrip (r.documentSkillName.getD ""))) :=
  review_map_semantics witnessRows "t1" witnessEntry (by decide) (by decide)

/-! ## Request parameters (C7) -/

/-- Counterexample to claim C7: in the current `src/main.py` the params dict
is built unconditionally (lines 422-429), so a fetch with `status_filter =
"All"` still sends the `TransactionStatus` parameter, here with value "All"
— the parameter is not omitted.  (The omit-on-"All" logic exists only in
`src/backup_09092025T015000/main.py` lines 487-489.) -/
theorem status_param_present_for_all :
    ("TransactionStatus", "All") ∈
      buildTxParams "All" "sk1" "2025-01-01T00:00:00+00:00" "2025-01-02T23:59:59+00:00"
        0 1000 := by
  simp [buildTxParams]

/-- Claim C7 (amended): every page request of the current transaction fetch
includes the `TransactionStatus` parameter with the submitted status value,
for every status value including "All". -/
theorem status_param_always_included (t s a b : String) (o l : Nat) :
    ("TransactionStatus", t) ∈ buildTxParams t s a b o l := by
  simp [buildTxParams]

/-! ## Authentication failure effects (C8) -/

theorem login_msg_ne_empty (m : String) : ("Login Failed. Error: " ++ m) ≠ "" := by
  intro hcon
  have hlen := congrArg String.length hcon
  rw [String.length_append] at hlen
  have h21 : ("Login Failed. Error: " : String).length = 21 := rfl
  have h0 : ("" : String).length = 0 := rfl
  rw [h21, h0] at hlen
  omega

/-- A session established by an earlier login, with a non-empty skill cache. -/
def priorAppState : AppState :=
  ⟨some "tok0", some "old.example", [⟨"s1", "Invoices", "Process"⟩], [], ⟨1, 2⟩, [], "", true⟩

/-- A 400 token-endpoint response carrying `error_description`. -/
def failedTokenResp : TokenResponse := ⟨400, none, some "invalid_client", none, "body"⟩

/-- Counterexample to claim C8: a failed login (token endpoint answers 400)
does NOT leave the whole prior session unchanged — `vantage_host` has
already been overwritten with the new (stripped) url by line 354 of
`src/main.py`, which runs before the token request. -/
theorem auth_failure_overwrites_host :
    (authenticate priorAppState " new.example " (some failedTokenResp) none "boom").vantage_host ≠
      priorAppState.vantage_host := by decide

/-- Claim C8 (amended): on every failed token exchange (non-200 status or
transport error) the handler sets a non-empty user-visible error message and
leaves `bearer_token` and all caches unchanged, but `vantage_host` is
overwritten with the stripped form url even on failure — the session update
is not atomic.  (A 200 response with a missing token is not treated as a
failure by the code: it stores the absent token and proceeds.) -/
theorem auth_failure_effects (st : AppState) (url : String)
    (tokenResp : Option TokenResponse) (skillsResp : Option SkillsResponse)
    (excMsg : String)
    (hfail : tokenResp = none ∨ ∃ r, tokenResp = some r ∧ r.status ≠ 200) :
    (authenticate st url tokenResp skillsResp excMsg).bearer_token = st.bearer_token ∧
    (authenticate st url tokenResp skillsResp excMsg).vantage_host = some (pyStrip url) ∧
    (authenticate st url tokenResp skillsResp excMsg).last_error ≠ "" ∧
    (authenticate st url tokenResp skillsResp excMsg).skills_cache = st.skills_cache ∧
    (authenticate st url tokenResp skillsResp excMsg).transactions_cache = st.transactions_cache ∧
    (authenticate st url tokenResp skillsResp excMsg).review_summary = st.review_summary ∧
    (authenticate st url tokenResp skillsResp excMsg).docskill_summary = st.docskill_summary := by
  rcases hfail with rfl | ⟨r, rfl, hr⟩
  · exact ⟨rfl, rfl, login_msg_ne_empty excMsg, rfl, rfl, rfl, rfl⟩
  · simp only [authenticate]
    rw [if_pos hr]
    exact ⟨rfl, rfl, login_msg_ne_empty (authErrMsg r), rfl, rfl, rfl, rfl⟩

/-- Witness for the amended claim C8 at a concrete failed login. -/
theorem auth_failure_effects_witness :
    (authenticate priorAppState "new.example" (some failedTokenResp) none "boom").bearer_token = priorAppState.bearer_token ∧
    (authenticate priorAppState "new.example" (some failedTokenResp) none "boom").vantage_host = some (pyStrip "new.example") ∧
    (authenticate priorAppState "new.example" (some failedTokenResp) none "boom").last_error ≠ "" ∧
    (authenticate priorAppState "new.example" (some failedTokenResp) none "boom").skills_cache = priorAppState.skills_cache ∧
    (authenticate priorAppState "new.example" (some failedTokenResp) none "boom").transactions_cache = priorAppState.transactions_cache ∧
    (authenticate priorAppState "new.example" (some failedTokenResp) none "boom").review_summary = priorAppState.review_summary ∧
    (authenticate priorAppState "new.example" (some failedTokenResp) none "boom").docskill_summary = priorAppState.docskill_summary :=
  auth_failure_effects priorAppState "new.example" (some failedTokenResp) none "boom"
    (Or.inr ⟨failedTokenResp, rfl, by decide⟩)

/-! ## Page-count coercion (C9) -/

/-- A raw item whose `pageCount` is a truthy non-numeric string. -/
def badPageItem : RawItem := ⟨"t1", "Processed", .vstr "abc", "", []⟩

/-- A review map that puts "t1" in document skill "Invoice". -/
def invoiceOnlyMap : ReviewMap := fun tid =>
  if tid = "t1" then ⟨false, "Invoice"⟩ else ⟨false, ""⟩

/-- Counterexample to claim C9: the coercion error branch is reachable.  On
an item with `pageCount = "abc"` and a non-empty document skill the
aggregation of `get_transactions` raises `ValueError` (modelled `none`)
instead of contributing 0, and the dashboard page total (main.py line 130)
raises likewise on the cached record. -/
theorem pagecount_coercion_failure :
    aggregate invoiceOnlyMap [badPageItem] = none ∧
    dashboardTotalPages [⟨badPageItem, "No", "Invoice"⟩] = none := by
  constructor
  · rfl
  · rfl

/-- `pageCount` values on which `int(v or 0)` cannot raise: missing/null,
an integer, or the empty string. -/
def PageVal.benign : PageVal → Bool
  | .vnone => true
  | .vint _ => true
  | .vstr s => s == ""

/-- Claim C9 (amended): aggregation does not fail when every item\'s
`pageCount` is missing, null, an integer, or the empty string; missing, null
and empty values contribute 0 and integer values contribute themselves.  (But
the error branch is reachable: a truthy non-numeric string `pageCount` makes
the `int(...)` coercion raise — see `pagecount_coercion_failure`.) -/
theorem pagecount_benign_total (rm : ReviewMap) (items : List RawItem)
    (h : ∀ it ∈ items, it.pageCount.benign = true) :
    (aggregate rm items).isSome = true ∧
    pyIntOr0 .vnone = some 0 ∧
    (∀ n, pyIntOr0 (.vint n) = some n) ∧
    pyIntOr0 (.vstr "") = some 0 := by
  refine ⟨?_, rfl, fun n => rfl, rfl⟩
  suffices key : ∀ (its : List RawItem) (st : AggSt),
      (∀ it ∈ its, it.pageCount.benign = true) →
      (aggLoop rm st its).isSome = true from key items initAggSt h
  intro its
  induction its with
  | nil =>
    intro st _
    rfl
  | cons row rest ih =>
    intro st hall
    have hrow : row.pageCount.benign = true := hall row (by simp)
    have hco : ∃ n, pyIntOr0 row.pageCount = some n := by
      cases hpc : row.pageCount with
      | vnone => exact ⟨0, rfl⟩
      | vint n => exact ⟨n, rfl⟩
      | vstr str =>
        rw [hpc] at hrow
        simp only [PageVal.benign, beq_iff_eq] at hrow
        exact ⟨0, by simp [pyIntOr0, hrow]⟩
    obtain ⟨n, hn⟩ := hco
    cases hstep : aggStep rm st row with
    | none =>
      exfalso
      by_cases hd : (rm row.transactionId).document_skill_name = ""
      · simp [aggStep, hd] at hstep
      · simp [aggStep, hd, hn] at hstep
    | some st1 =>
      simp only [aggLoop, hstep]
      exact ih st1 (fun it hit => hall it (by simp [hit]))

/-- Items with benign page counts: one missing, one integer, one empty. -/
def benignItems : List RawItem :=
  [⟨"a", "Processed", .vnone, "", []⟩,
   ⟨"t1", "Processed", .vint 3, "", []⟩,
   ⟨"b", "Processed", .vstr "", "", []⟩]

/-- Witness for the amended claim C9 at concrete benign inputs. -/
theorem pagecount_benign_total_witness :
    (aggregate invoiceOnlyMap benignItems).isSome = true ∧
    pyIntOr0 .vnone = some 0 ∧
    (∀ n, pyIntOr0 (.vint n) = some n) ∧
    pyIntOr0 (.vstr "") = some 0 :=
  pagecount_benign_total invoiceOnlyMap benignItems (by decide)

/-! ## Unauthenticated POST /transactions is a no-op (C10) -/

/-- Claim C10: a `POST /transactions` made while unauthenticated (falsy
`bearer_token` or `vantage_host`) redirects immediately with the shared
state unchanged — `transactions_cache`, `review_summary`,
`docskill_summary`, `skills_cache`, `last_error` and `search_attempted` all
keep their prior values (the result state is the input state itself). -/
theorem unauthenticated_transactions_noop (st : AppState)
    (s1 s2 s3 s4 : String) (respond : Nat → Option Page) (resp : ReviewResponse)
    (fuel : Nat)
    (h : optTruthy st.bearer_token = false ∨ optTruthy st.vantage_host = false) :
    getTransactionsHandler st s1 s2 s3 s4 respond resp fuel = some (.redirect st) := by
  rcases h with h | h <;> simp [getTransactionsHandler, h]

/-- A logged-out state with stale caches left over from a prior session. -/
def loggedOutState : AppState :=
  ⟨none, some "old.example", [⟨"s1", "Invoices", "Process"⟩],
   [⟨defaultRawItem, "No", ""⟩], ⟨0, 1⟩, [], "stale error", true⟩

/-- Witness for claim C10 at a concrete unauthenticated state. -/
theorem unauthenticated_transactions_noop_witness :
    getTransactionsHandler loggedOutState "s" "Processed" "2025-01-01" "2025-01-02"
        singleItemServer failingReviewResp 1 =
      some (.redirect loggedOutState) :=
  unauthenticated_transactions_noop loggedOutState "s" "Processed" "2025-01-01" "2025-01-02"
    singleItemServer failingReviewResp 1 (Or.inl rfl)

end Vantage
